import Mathlib

/-!
Verification of the numerical core of Linalgovistool (`backend/app.py`).

The backend exposes four stateless numerical operations built on NumPy:
2x2 and 3x3 eigendecomposition post-processing (`calculate_eigenvalues_2d`,
`calculate_eigenvalues_3d`), a matrix-vector transform (`transform_vector`)
and an approximate-eigenvector test (`check_eigenvector_alignment`).

Modelling conventions:
* Python floats are modelled as real numbers; `np.linalg.norm` of a 1-d
  array is the square root of the sum of squares of its entries.
* `np.linalg.eig` is an external solver: the two decomposition routines are
  parameterised by its output (a list of complex eigenvalues paired with a
  list of complex eigenvectors, the columns of the returned matrix).
  Complex scalars are modelled by the `CNum` structure (re / im parts).
* A Python exception that escapes an operation is an `Except.error`;
  `check_eigenvector_alignment` catches every exception and returns `None`,
  so it is modelled as a total function into `Option`.
* `np.dot` raises on incompatible shapes and `np.cross` raises when either
  argument does not have dimension 2 or 3; inside the alignment check these
  fallible steps are modelled as `Option`-valued helpers.
* `np.linalg.det` and `np.trace` on concrete 2x2 / 3x3 input are modelled
  by the standard closed-form determinant and trace formulas.
-/

namespace Linalgovistool

/-- A complex scalar as produced by the eigensolver: real and imaginary part
(`val.real` / `val.imag` in the Python source). -/
structure CNum where
  re : ℝ
  im : ℝ

/-- A vector: ordered sequence of reals (a 1-d numpy array). -/
abbrev Vec := List ℝ

/-- A matrix: list of rows (a 2-d numpy array when the rows are rectangular). -/
abbrev Mat := List (List ℝ)

/-- Number of columns of a (rectangular) matrix: length of its first row,
`matrix.shape[1]` in numpy. -/
def nCols (m : Mat) : Nat := (m.headD []).length

/-- Rectangularity: every row has the common column count.  The HTTP contract
(spec section 6) only admits matrices whose rows have equal length. -/
def rect (m : Mat) : Prop := ∀ r ∈ m, r.length = nCols m

/-- Entry `m[i][j]` (defaulting to 0 out of range; all uses are in range). -/
def entry (m : Mat) (i j : Nat) : ℝ := (m.getD i []).getD j 0

/-- Dot product of two real vectors, `np.dot` on equal-length 1-d arrays. -/
def dotR (a b : Vec) : ℝ := ((a.zip b).map fun p => p.1 * p.2).sum

/-- Euclidean norm of a vector: `np.linalg.norm`. -/
noncomputable def euclNorm (v : Vec) : ℝ := Real.sqrt ((v.map fun x => x * x).sum)

/-- An error escaping an operation (Python `ValueError` with its message;
the spec calls shape-precondition violations `ShapeError`). -/
inductive AppError where
  | shape (msg : String)
deriving DecidableEq

/-- An eigenvalue as serialised by the backend: a bare real number, or a
record of real and imaginary parts. -/
inductive EigVal where
  | real (x : ℝ)
  | cplx (re im : ℝ)

/-- An eigenvector as serialised by the backend: a list of real components,
or parallel lists of real and imaginary parts. -/
inductive EigVec where
  | real (v : List ℝ)
  | cplx (re im : List ℝ)

/-- The result dictionary built by the decomposition routines. -/
structure DecompositionResult where
  eigenvalues : List EigVal
  eigenvectors : List EigVec
  is_real : List Bool
  determinant : ℝ
  trace : ℝ

/-- Closed-form determinant of a 2x2 matrix (`np.linalg.det`). -/
def det2 (m : Mat) : ℝ := entry m 0 0 * entry m 1 1 - entry m 0 1 * entry m 1 0

/-- Trace of a 2x2 matrix (`np.trace`). -/
def trace2 (m : Mat) : ℝ := entry m 0 0 + entry m 1 1

/-- Closed-form determinant of a 3x3 matrix (`np.linalg.det`). -/
def det3 (m : Mat) : ℝ :=
  entry m 0 0 * (entry m 1 1 * entry m 2 2 - entry m 1 2 * entry m 2 1)
    - entry m 0 1 * (entry m 1 0 * entry m 2 2 - entry m 1 2 * entry m 2 0)
    + entry m 0 2 * (entry m 1 0 * entry m 2 1 - entry m 1 1 * entry m 2 0)

/-- Trace of a 3x3 matrix (`np.trace`). -/
def trace3 (m : Mat) : ℝ := entry m 0 0 + entry m 1 1 + entry m 2 2

/-- Body of the per-eigenpair loop of `calculate_eigenvalues_2d`
(app.py lines 37-67): classify by `abs(val.imag) < 1e-10`; a real pair keeps
the real parts and is unit-normalised when the norm exceeds `1e-10`; a
complex pair is emitted as raw re/im component lists. -/
noncomputable def processPair2 (val : CNum) (vec : CNum × CNum) :
    EigVal × EigVec × Bool :=
  if |val.im| < 1e-10 then
    let real_vec : List ℝ := [vec.1.re, vec.2.re]
    let norm := euclNorm real_vec
    let out_vec := if norm > 1e-10 then real_vec.map fun x => x / norm else real_vec
    (EigVal.real val.re, EigVec.real out_vec, true)
  else
    (EigVal.cplx val.re val.im,
     EigVec.cplx [vec.1.re, vec.2.re] [vec.1.im, vec.2.im], false)

/-- Body of the per-eigenpair loop of `calculate_eigenvalues_3d`
(app.py lines 95-122), identical policy in dimension 3. -/
noncomputable def processPair3 (val : CNum) (vec : CNum × CNum × CNum) :
    EigVal × EigVec × Bool :=
  if |val.im| < 1e-10 then
    let real_vec : List ℝ := [vec.1.re, vec.2.1.re, vec.2.2.re]
    let norm := euclNorm real_vec
    let out_vec := if norm > 1e-10 then real_vec.map fun x => x / norm else real_vec
    (EigVal.real val.re, EigVec.real out_vec, true)
  else
    (EigVal.cplx val.re val.im,
     EigVec.cplx [vec.1.re, vec.2.1.re, vec.2.2.re]
       [vec.1.im, vec.2.1.im, vec.2.2.im], false)

/-- Shape precondition of `calculate_eigenvalues_2d`: `matrix.shape == (2, 2)`. -/
def shape2 (m : Mat) : Prop := m.length = 2 ∧ ∀ r ∈ m, r.length = 2

instance : DecidablePred shape2 := fun m => by unfold shape2; infer_instance

/-- Shape precondition of `calculate_eigenvalues_3d`: `matrix.shape == (3, 3)`. -/
def shape3 (m : Mat) : Prop := m.length = 3 ∧ ∀ r ∈ m, r.length = 3

instance : DecidablePred shape3 := fun m => by unfold shape3; infer_instance

/-- The result dictionary assembled by the loop of `calculate_eigenvalues_2d`:
the Python `for` loop appends one eigenvalue, eigenvector and reality flag per
solver pair, i.e. maps `processPair2` over `zip(eigenvalues, eigenvectors.T)`. -/
noncomputable def decompBuild2 (matrix : Mat) (vals : List CNum)
    (vecs : List (CNum × CNum)) : DecompositionResult :=
  let pairs := (vals.zip vecs).map fun p => processPair2 p.1 p.2
  { eigenvalues := pairs.map fun t => t.1
    eigenvectors := pairs.map fun t => t.2.1
    is_real := pairs.map fun t => t.2.2
    determinant := det2 matrix
    trace := trace2 matrix }

/-- `calculate_eigenvalues_2d` (app.py lines 17-73), parameterised by the
eigensolver output `vals`, `vecs`.  The shape check precedes the solver call;
on violation the `ValueError` is re-raised to the caller. -/
noncomputable def calculate_eigenvalues_2d (matrix : Mat) (vals : List CNum)
    (vecs : List (CNum × CNum)) : Except AppError DecompositionResult :=
  if shape2 matrix then .ok (decompBuild2 matrix vals vecs)
  else .error (.shape "Matrix must be 2x2")

/-- The result dictionary assembled by the loop of `calculate_eigenvalues_3d`. -/
noncomputable def decompBuild3 (matrix : Mat) (vals : List CNum)
    (vecs : List (CNum × CNum × CNum)) : DecompositionResult :=
  let pairs := (vals.zip vecs).map fun p => processPair3 p.1 p.2
  { eigenvalues := pairs.map fun t => t.1
    eigenvectors := pairs.map fun t => t.2.1
    is_real := pairs.map fun t => t.2.2
    determinant := det3 matrix
    trace := trace3 matrix }

/-- `calculate_eigenvalues_3d` (app.py lines 76-128), parameterised by the
eigensolver output. -/
noncomputable def calculate_eigenvalues_3d (matrix : Mat) (vals : List CNum)
    (vecs : List (CNum × CNum × CNum)) : Except AppError DecompositionResult :=
  if shape3 matrix then .ok (decompBuild3 matrix vals vecs)
  else .error (.shape "Matrix must be 3x3")

/-- `np.dot(matrix, vector)` for a 2-d by 1-d product: each entry is the dot
product of a matrix row with the vector. -/
def matVecDot (m : Mat) (v : Vec) : Vec := m.map fun r => dotR r v

/-- Squareness test of `transform_vector` (app.py line 139):
`len(matrix.shape) == 2 and matrix.shape[0] == matrix.shape[1]`.  An empty
list converts to a 1-d array, so it fails the test. -/
def isSquareMat (m : Mat) : Prop := m.length ≠ 0 ∧ m.length = nCols m

instance : DecidablePred isSquareMat := fun m => by unfold isSquareMat; infer_instance

/-- `transform_vector` (app.py lines 131-150): squareness check, then vector
length check, then the matrix-vector product; errors re-raise to the caller. -/
def transform_vector (matrix : Mat) (vector : Vec) : Except AppError Vec :=
  if isSquareMat matrix then
    if vector.length = nCols matrix then .ok (matVecDot matrix vector)
    else .error (.shape "Vector dimension must match matrix size")
  else .error (.shape "Matrix must be square")

/-- `np.dot(matrix, vector)` as used inside `check_eigenvector_alignment`,
where a shape mismatch raises (modelled by `none`). -/
def npDotMV (m : Mat) (v : Vec) : Option Vec :=
  if m.length ≠ 0 ∧ v.length = nCols m then some (matVecDot m v) else none

/-- `np.dot(a, b)` on two 1-d arrays: raises unless the lengths agree. -/
def npDotVV (a b : Vec) : Option ℝ :=
  if a.length = b.length then some (dotR a b) else none

/-- `np.cross` accepts vectors of dimension 2 or 3, padding dimension 2 with
a zero z-component; anything else raises. -/
def pad3 : Vec → Option (ℝ × ℝ × ℝ)
  | [x, y] => some (x, y, 0)
  | [x, y, z] => some (x, y, z)
  | _ => none

/-- The 3-d cross product. -/
def cross3 (a b : ℝ × ℝ × ℝ) : Vec :=
  [a.2.1 * b.2.2 - a.2.2 * b.2.1,
   a.2.2 * b.1 - a.1 * b.2.2,
   a.1 * b.2.1 - a.2.1 * b.1]

/-- `np.linalg.norm(np.cross(a, b))` (app.py line 172): `none` models the
exception raised when either vector has dimension outside 2 and 3.  When both
arguments are 2-d numpy returns the scalar z-component, whose norm equals the
norm of the padded 3-d cross product. -/
noncomputable def crossNorm (a b : Vec) : Option ℝ :=
  match pad3 a, pad3 b with
  | some x, some y => some (euclNorm (cross3 x y))
  | _, _ => none

/-- `check_eigenvector_alignment` (app.py lines 153-183).  Degenerate vectors
(norm below tolerance) return `none`; every internal exception is caught and
converted to `none`; otherwise the eigenvalue is returned iff the normalised
vector and its image are parallel within tolerance. -/
noncomputable def check_eigenvector_alignment (matrix : Mat) (vector : Vec)
    (tolerance : ℝ := 1e-6) : Option ℝ :=
  let norm := euclNorm vector
  if norm < tolerance then none
  else
    let normalized_vector := vector.map fun x => x / norm
    match npDotMV matrix normalized_vector with
    | none => none
    | some transformed =>
      match crossNorm normalized_vector transformed with
      | none => none
      | some cross_product_magnitude =>
        if cross_product_magnitude < tolerance then
          match npDotVV transformed normalized_vector with
          | none => none
          | some eigenvalue => some eigenvalue
        else none

/-! ### Helper lemmas -/

/-- `euclNorm` on a two-component vector. -/
lemma euclNorm_two (a b : ℝ) : euclNorm [a, b] = Real.sqrt (a * a + b * b) := by
  simp [euclNorm]

/-- `euclNorm` on a three-component vector. -/
lemma euclNorm_three (a b c : ℝ) :
    euclNorm [a, b, c] = Real.sqrt (a * a + (b * b + c * c)) := by
  simp [euclNorm, add_assoc]

/-- The norm is nonnegative. -/
lemma euclNorm_nonneg (v : Vec) : 0 ≤ euclNorm v := Real.sqrt_nonneg _

/-- `np.cross` raises when a vector has dimension outside 2 and 3. -/
lemma pad3_eq_none (v : Vec) (h2 : v.length ≠ 2) (h3 : v.length ≠ 3) :
    pad3 v = none := by
  match v with
  | [] => rfl
  | [_] => rfl
  | [_, _] => exact absurd rfl h2
  | [_, _, _] => exact absurd rfl h3
  | _ :: _ :: _ :: _ :: _ => rfl

lemma crossNorm_of_pad3_left_none {a : Vec} (b : Vec) (h : pad3 a = none) :
    crossNorm a b = none := by
  unfold crossNorm
  rw [h]

/-- If the internal `np.dot` step raises, the alignment check answers `none`. -/
lemma alignment_none_of_dot_fail (matrix : Mat) (vector : Vec) (tolerance : ℝ)
    (hdot : npDotMV matrix (vector.map fun x => x / euclNorm vector) = none) :
    check_eigenvector_alignment matrix vector tolerance = none := by
  unfold check_eigenvector_alignment
  by_cases hlt : euclNorm vector < tolerance
  · simp [hlt]
  · simp [hlt, hdot]

/-- If the internal `np.cross` step raises, the alignment check answers `none`. -/
lemma alignment_none_of_cross_fail (matrix : Mat) (vector : Vec) (tolerance : ℝ)
    (tv : Vec)
    (hdot : npDotMV matrix (vector.map fun x => x / euclNorm vector) = some tv)
    (hcross : crossNorm (vector.map fun x => x / euclNorm vector) tv = none) :
    check_eigenvector_alignment matrix vector tolerance = none := by
  unfold check_eigenvector_alignment
  by_cases hlt : euclNorm vector < tolerance
  · simp [hlt]
  · simp [hlt, hdot, hcross]

/-- If the final eigenvalue dot product (app.py line 176) raises, the
alignment check answers `none`: this step runs only after the dot and cross
steps succeeded and the parallelism test passed. -/
lemma alignment_none_of_vv_fail (matrix : Mat) (vector : Vec) (tolerance : ℝ)
    (tv : Vec) (c : ℝ)
    (hdot : npDotMV matrix (vector.map fun x => x / euclNorm vector) = some tv)
    (hcross : crossNorm (vector.map fun x => x / euclNorm vector) tv = some c)
    (hvv : npDotVV tv (vector.map fun x => x / euclNorm vector) = none) :
    check_eigenvector_alignment matrix vector tolerance = none := by
  unfold check_eigenvector_alignment
  by_cases hlt : euclNorm vector < tolerance
  · simp [hlt]
  · by_cases hct : c < tolerance
    · simp [hlt, hdot, hcross, hct, hvv]
    · simp [hlt, hdot, hcross, hct]

/-- When the transformed vector's length differs from the input vector's,
the alignment check answers `none`: whichever of the remaining steps runs
first fails (the cross product if a dimension is outside 2 and 3, otherwise
the final dot product on mismatched lengths). -/
lemma alignment_none_of_tv_len_ne (matrix : Mat) (vector : Vec) (tolerance : ℝ)
    (tv : Vec)
    (hdot : npDotMV matrix (vector.map fun x => x / euclNorm vector) = some tv)
    (hlen : tv.length ≠ vector.length) :
    check_eigenvector_alignment matrix vector tolerance = none := by
  have hvv : npDotVV tv (vector.map fun x => x / euclNorm vector) = none := by
    unfold npDotVV
    rw [if_neg]
    simpa using hlen
  cases hc : crossNorm (vector.map fun x => x / euclNorm vector) tv with
  | none => exact alignment_none_of_cross_fail matrix vector tolerance tv hdot hc
  | some c => exact alignment_none_of_vv_fail matrix vector tolerance tv c hdot hc hvv

/-- Characterisation of the per-pair loop body in dimension 2: the reality
flag tracks the eigenvalue's imaginary part, a real pair is normalised
exactly when the norm of its real components exceeds 1e-10, a complex pair
is emitted raw. -/
lemma processPair2_spec (val : CNum) (vec : CNum × CNum) :
    ((processPair2 val vec).2.2 = true ↔ |val.im| < 1e-10) ∧
      (|val.im| < 1e-10 →
        (processPair2 val vec).2.1 =
          EigVec.real (if 1e-10 < euclNorm [vec.1.re, vec.2.re] then
            [vec.1.re, vec.2.re].map fun x => x / euclNorm [vec.1.re, vec.2.re]
          else [vec.1.re, vec.2.re])) ∧
      (¬ |val.im| < 1e-10 →
        (processPair2 val vec).2.1 =
          EigVec.cplx [vec.1.re, vec.2.re] [vec.1.im, vec.2.im]) := by
  unfold processPair2
  by_cases hc : |val.im| < 1e-10
  · simp [hc]
  · simp [hc]

/-- Characterisation of the per-pair loop body in dimension 3. -/
lemma processPair3_spec (val : CNum) (vec : CNum × CNum × CNum) :
    ((processPair3 val vec).2.2 = true ↔ |val.im| < 1e-10) ∧
      (|val.im| < 1e-10 →
        (processPair3 val vec).2.1 =
          EigVec.real (if 1e-10 < euclNorm [vec.1.re, vec.2.1.re, vec.2.2.re] then
            [vec.1.re, vec.2.1.re, vec.2.2.re].map
              fun x => x / euclNorm [vec.1.re, vec.2.1.re, vec.2.2.re]
          else [vec.1.re, vec.2.1.re, vec.2.2.re])) ∧
      (¬ |val.im| < 1e-10 →
        (processPair3 val vec).2.1 =
          EigVec.cplx [vec.1.re, vec.2.1.re, vec.2.2.re]
            [vec.1.im, vec.2.1.im, vec.2.2.im]) := by
  unfold processPair3
  by_cases hc : |val.im| < 1e-10
  · simp [hc]
  · simp [hc]

/-- Indexing the three result lists built by the 2-d loop. -/
lemma decompBuild2_getD (matrix : Mat) (vals : List CNum) (vecs : List (CNum × CNum))
    (i : Nat) (h1 : i < vals.length) (h2 : i < vecs.length) :
    (decompBuild2 matrix vals vecs).eigenvalues.getD i (EigVal.real 0) =
        (processPair2 (vals.getD i ⟨0, 0⟩) (vecs.getD i (⟨0, 0⟩, ⟨0, 0⟩))).1 ∧
      (decompBuild2 matrix vals vecs).eigenvectors.getD i (EigVec.real []) =
        (processPair2 (vals.getD i ⟨0, 0⟩) (vecs.getD i (⟨0, 0⟩, ⟨0, 0⟩))).2.1 ∧
      (decompBuild2 matrix vals vecs).is_real.getD i false =
        (processPair2 (vals.getD i ⟨0, 0⟩) (vecs.getD i (⟨0, 0⟩, ⟨0, 0⟩))).2.2 := by
  have hz : i < (vals.zip vecs).length := by
    rw [List.length_zip]
    omega
  refine ⟨?_, ?_, ?_⟩ <;>
    (simp only [decompBuild2]
     rw [List.getD_eq_getElem _ _ (by simpa using hz)]
     simp only [List.getElem_map, List.getElem_zip]
     rw [List.getD_eq_getElem _ _ h1, List.getD_eq_getElem _ _ h2])

/-- Indexing the three result lists built by the 3-d loop. -/
lemma decompBuild3_getD (matrix : Mat) (vals : List CNum)
    (vecs : List (CNum × CNum × CNum)) (i : Nat) (h1 : i < vals.length)
    (h2 : i < vecs.length) :
    (decompBuild3 matrix vals vecs).eigenvalues.getD i (EigVal.real 0) =
        (processPair3 (vals.getD i ⟨0, 0⟩) (vecs.getD i (⟨0, 0⟩, ⟨0, 0⟩, ⟨0, 0⟩))).1 ∧
      (decompBuild3 matrix vals vecs).eigenvectors.getD i (EigVec.real []) =
        (processPair3 (vals.getD i ⟨0, 0⟩) (vecs.getD i (⟨0, 0⟩, ⟨0, 0⟩, ⟨0, 0⟩))).2.1 ∧
      (decompBuild3 matrix vals vecs).is_real.getD i false =
        (processPair3 (vals.getD i ⟨0, 0⟩) (vecs.getD i (⟨0, 0⟩, ⟨0, 0⟩, ⟨0, 0⟩))).2.2 := by
  have hz : i < (vals.zip vecs).length := by
    rw [List.length_zip]
    omega
  refine ⟨?_, ?_, ?_⟩ <;>
    (simp only [decompBuild3]
     rw [List.getD_eq_getElem _ _ (by simpa using hz)]
     simp only [List.getElem_map, List.getElem_zip]
     rw [List.getD_eq_getElem _ _ h1, List.getD_eq_getElem _ _ h2])

/-- A successful 2-d decomposition is exactly the built result dictionary. -/
lemma calc2d_ok_inv (matrix : Mat) (vals : List CNum) (vecs : List (CNum × CNum))
    (r : DecompositionResult)
    (h : calculate_eigenvalues_2d matrix vals vecs = .ok r) :
    r = decompBuild2 matrix vals vecs := by
  unfold calculate_eigenvalues_2d at h
  by_cases hs : shape2 matrix
  · rw [if_pos hs] at h
    injection h with h
    exact h.symm
  · rw [if_neg hs] at h
    exact absurd h (by simp)

/-- A successful 3-d decomposition is exactly the built result dictionary. -/
lemma calc3d_ok_inv (matrix : Mat) (vals : List CNum)
    (vecs : List (CNum × CNum × CNum)) (r : DecompositionResult)
    (h : calculate_eigenvalues_3d matrix vals vecs = .ok r) :
    r = decompBuild3 matrix vals vecs := by
  unfold calculate_eigenvalues_3d at h
  by_cases hs : shape3 matrix
  · rw [if_pos hs] at h
    injection h with h
    exact h.symm
  · rw [if_neg hs] at h
    exact absurd h (by simp)

/-! ### Claim theorems -/

/-- C5: for every matrix and every vector whose Euclidean norm is strictly
below the tolerance argument, `check_eigenvector_alignment` returns the
"not an eigenvector" answer (`none`), raising no error and before performing
any transform or parallelism computation (the matrix is arbitrary, even
ill-shaped). -/
theorem claim5_zero_norm_soft_return (matrix : Mat) (vector : Vec) (tolerance : ℝ)
    (h : euclNorm vector < tolerance) :
    check_eigenvector_alignment matrix vector tolerance = none := by
  unfold check_eigenvector_alignment
  simp [h]

theorem claim5_witness :
    euclNorm [(0 : ℝ), 0] < 1e-6 ∧
      check_eigenvector_alignment [[0, 1]] [0, 0] 1e-6 = none := by
  have h : euclNorm [(0 : ℝ), 0] < 1e-6 := by
    rw [euclNorm_two]
    norm_num [Real.sqrt_zero]
  exact ⟨h, claim5_zero_norm_soft_return [[0, 1]] [0, 0] 1e-6 h⟩

/-- C8: for every square matrix and matching vector, `transform_vector`
returns a vector of length equal to the row count whose `i`-th entry is the
dot product of the `i`-th matrix row with the input vector (no
normalization). -/
theorem claim8_transform_rowwise_dot (matrix : Mat) (vector : Vec)
    (hsq : isSquareMat matrix) (hv : vector.length = nCols matrix) :
    ∃ w, transform_vector matrix vector = .ok w ∧ w.length = matrix.length ∧
      ∀ i, i < matrix.length → w.getD i 0 = dotR (matrix.getD i []) vector := by
  refine ⟨matVecDot matrix vector, ?_, ?_, ?_⟩
  · unfold transform_vector
    rw [if_pos hsq, if_pos hv]
  · simp [matVecDot]
  · intro i hi
    have hlen : i < (matVecDot matrix vector).length := by simpa [matVecDot] using hi
    rw [List.getD_eq_getElem _ _ hlen, List.getD_eq_getElem _ _ hi]
    simp [matVecDot]

theorem claim8_witness :
    isSquareMat [[(1 : ℝ), 0], [0, 1]] ∧
      ([(3 : ℝ), 4] : Vec).length = nCols [[(1 : ℝ), 0], [0, 1]] ∧
      ∃ w, transform_vector [[(1 : ℝ), 0], [0, 1]] [3, 4] = .ok w ∧
        w.length = ([[(1 : ℝ), 0], [0, 1]] : Mat).length ∧
        ∀ i, i < ([[(1 : ℝ), 0], [0, 1]] : Mat).length →
          w.getD i 0 = dotR (([[(1 : ℝ), 0], [0, 1]] : Mat).getD i []) [3, 4] := by
  have h1 : isSquareMat [[(1 : ℝ), 0], [0, 1]] := by
    exact ⟨by simp, by simp [nCols]⟩
  have h2 : ([(3 : ℝ), 4] : Vec).length = nCols [[(1 : ℝ), 0], [0, 1]] := by
    simp [nCols]
  exact ⟨h1, h2, claim8_transform_rowwise_dot _ _ h1 h2⟩

/-- C9: for every nonempty rectangular matrix and every vector,
`transform_vector` fails exactly when the matrix is not square or the vector
length differs from the column count, and the error message identifies which
constraint was violated. -/
theorem claim9_transform_shape_errors (matrix : Mat) (vector : Vec)
    (hne : matrix ≠ []) (hrect : rect matrix) :
    ((∃ e, transform_vector matrix vector = .error e) ↔
        matrix.length ≠ nCols matrix ∨ vector.length ≠ nCols matrix) ∧
      (matrix.length ≠ nCols matrix →
        transform_vector matrix vector = .error (.shape "Matrix must be square")) ∧
      (matrix.length = nCols matrix → vector.length ≠ nCols matrix →
        transform_vector matrix vector =
          .error (.shape "Vector dimension must match matrix size")) := by
  have hlen : matrix.length ≠ 0 := by
    have := List.length_pos.mpr hne
    omega
  by_cases hsq : matrix.length = nCols matrix
  · have hsqm : isSquareMat matrix := ⟨hlen, hsq⟩
    by_cases hv : vector.length = nCols matrix
    · have hok : transform_vector matrix vector = .ok (matVecDot matrix vector) := by
        unfold transform_vector
        rw [if_pos hsqm, if_pos hv]
      refine ⟨?_, fun h => absurd hsq h, fun _ h => absurd hv h⟩
      simp [hok, hsq, hv]
    · have herr : transform_vector matrix vector =
          .error (.shape "Vector dimension must match matrix size") := by
        unfold transform_vector
        rw [if_pos hsqm, if_neg hv]
      refine ⟨?_, fun h => absurd hsq h, fun _ _ => herr⟩
      simp [herr, hv]
  · have hnsq : ¬ isSquareMat matrix := fun hc => hsq hc.2
    have herr : transform_vector matrix vector =
        .error (.shape "Matrix must be square") := by
      unfold transform_vector
      rw [if_neg hnsq]
    exact ⟨by simp [herr, hsq], fun _ => herr, fun h => absurd h hsq⟩

theorem claim9_witness :
    ([[(1 : ℝ), 0], [0, 1]] : Mat) ≠ [] ∧ rect [[(1 : ℝ), 0], [0, 1]] ∧
      transform_vector [[(1 : ℝ), 0], [0, 1]] [1, 2, 3] =
        .error (.shape "Vector dimension must match matrix size") := by
  have hne : ([[(1 : ℝ), 0], [0, 1]] : Mat) ≠ [] := by simp
  have hrect : rect [[(1 : ℝ), 0], [0, 1]] := by
    simp [rect, nCols]
  exact ⟨hne, hrect,
    (claim9_transform_shape_errors _ _ hne hrect).2.2 (by simp [nCols]) (by simp [nCols])⟩

/-- C10: for every square matrix whose size is 1 or at least 4 and every
matching vector whose norm is at least the tolerance, the alignment check
answers "not an eigenvector" (`none`), even when the vector is an exact
eigenvector: `np.cross` is undefined outside dimensions 2 and 3 and the
raised error is converted to a negative answer. -/
theorem claim10_cross_dim_soft_reject (matrix : Mat) (vector : Vec) (tolerance : ℝ)
    (hne : matrix ≠ []) (hrect : rect matrix) (hsq : matrix.length = nCols matrix)
    (hdim : nCols matrix = 1 ∨ 4 ≤ nCols matrix)
    (hv : vector.length = nCols matrix) (hn : tolerance ≤ euclNorm vector) :
    check_eigenvector_alignment matrix vector tolerance = none := by
  have hnlt : ¬ euclNorm vector < tolerance := not_lt.mpr hn
  have hlen : matrix.length ≠ 0 := by
    have := List.length_pos.mpr hne
    omega
  have hnv : (vector.map fun x => x / euclNorm vector).length = nCols matrix := by
    simp [hv]
  have hdot : npDotMV matrix (vector.map fun x => x / euclNorm vector) =
      some (matVecDot matrix (vector.map fun x => x / euclNorm vector)) := by
    unfold npDotMV
    rw [if_pos ⟨hlen, hnv⟩]
  have hpad : pad3 (vector.map fun x => x / euclNorm vector) = none := by
    rcases hdim with h | h <;>
      · apply pad3_eq_none <;> rw [List.length_map, hv] <;> omega
  have hcross : crossNorm (vector.map fun x => x / euclNorm vector)
      (matVecDot matrix (vector.map fun x => x / euclNorm vector)) = none :=
    crossNorm_of_pad3_left_none _ hpad
  unfold check_eigenvector_alignment
  simp [hnlt, hdot, hcross]

theorem claim10_witness :
    rect [[(2 : ℝ)]] ∧ ([[(2 : ℝ)]] : Mat).length = nCols [[(2 : ℝ)]] ∧
      nCols [[(2 : ℝ)]] = 1 ∧ (1e-6 : ℝ) ≤ euclNorm [(1 : ℝ)] ∧
      matVecDot [[(2 : ℝ)]] [1] = [(2 : ℝ) * 1] ∧
      check_eigenvector_alignment [[(2 : ℝ)]] [1] 1e-6 = none := by
  have hrect : rect [[(2 : ℝ)]] := by simp [rect, nCols]
  have hsq : ([[(2 : ℝ)]] : Mat).length = nCols [[(2 : ℝ)]] := by simp [nCols]
  have hcols : nCols [[(2 : ℝ)]] = 1 := by simp [nCols]
  have hn : (1e-6 : ℝ) ≤ euclNorm [(1 : ℝ)] := by
    norm_num [euclNorm, Real.sqrt_one]
  have heig : matVecDot [[(2 : ℝ)]] [1] = [(2 : ℝ) * 1] := by
    norm_num [matVecDot, dotR]
  exact ⟨hrect, hsq, hcols, hn, heig,
    claim10_cross_dim_soft_reject [[(2 : ℝ)]] [1] 1e-6 (by simp) hrect hsq
      (Or.inl hcols) (by simp [nCols]) hn⟩

/-- C7: whenever an internal computation step of the alignment check fails
(the matrix-vector `np.dot`, the `np.cross` norm, or the final eigenvalue
`np.dot` raises), the operation returns "not an eigenvector" (`none`)
instead of propagating the error, whereas the two decomposition routines
and `transform_vector` surface their internal errors to the caller. -/
theorem claim7_alignment_soft_failure :
    (∀ (matrix : Mat) (vector : Vec) (tolerance : ℝ),
        npDotMV matrix (vector.map fun x => x / euclNorm vector) = none →
        check_eigenvector_alignment matrix vector tolerance = none) ∧
      (∀ (matrix : Mat) (vector : Vec) (tolerance : ℝ) (tv : Vec),
        npDotMV matrix (vector.map fun x => x / euclNorm vector) = some tv →
        crossNorm (vector.map fun x => x / euclNorm vector) tv = none →
        check_eigenvector_alignment matrix vector tolerance = none) ∧
      (∀ (matrix : Mat) (vector : Vec) (tolerance : ℝ) (tv : Vec) (c : ℝ),
        npDotMV matrix (vector.map fun x => x / euclNorm vector) = some tv →
        crossNorm (vector.map fun x => x / euclNorm vector) tv = some c →
        npDotVV tv (vector.map fun x => x / euclNorm vector) = none →
        check_eigenvector_alignment matrix vector tolerance = none) ∧
      (∀ (matrix : Mat) (vals : List CNum) (vecs : List (CNum × CNum)),
        ¬ shape2 matrix →
        ∃ e, calculate_eigenvalues_2d matrix vals vecs = Except.error e) ∧
      (∀ (matrix : Mat) (vals : List CNum) (vecs : List (CNum × CNum × CNum)),
        ¬ shape3 matrix →
        ∃ e, calculate_eigenvalues_3d matrix vals vecs = Except.error e) ∧
      ∀ (matrix : Mat) (vector : Vec),
        ¬ isSquareMat matrix ∨ vector.length ≠ nCols matrix →
        ∃ e, transform_vector matrix vector = Except.error e := by
  refine ⟨?_, ?_, ?_, ?_, ?_, ?_⟩
  · intro matrix vector tolerance hdot
    exact alignment_none_of_dot_fail matrix vector tolerance hdot
  · intro matrix vector tolerance tv hdot hcross
    exact alignment_none_of_cross_fail matrix vector tolerance tv hdot hcross
  · intro matrix vector tolerance tv c hdot hcross hvv
    exact alignment_none_of_vv_fail matrix vector tolerance tv c hdot hcross hvv
  · intro matrix vals vecs h
    unfold calculate_eigenvalues_2d
    rw [if_neg h]
    exact ⟨_, rfl⟩
  · intro matrix vals vecs h
    unfold calculate_eigenvalues_3d
    rw [if_neg h]
    exact ⟨_, rfl⟩
  · intro matrix vector h
    unfold transform_vector
    rcases h with h | h
    · rw [if_neg h]
      exact ⟨_, rfl⟩
    · by_cases hsq : isSquareMat matrix
      · rw [if_pos hsq, if_neg h]
        exact ⟨_, rfl⟩
      · rw [if_neg hsq]
        exact ⟨_, rfl⟩

theorem claim7_witness :
    (npDotMV [[(1 : ℝ), 0], [0, 1]] ([(1 : ℝ), 0, 0].map fun x => x / euclNorm [(1 : ℝ), 0, 0]) =
          none ∧
        check_eigenvector_alignment [[(1 : ℝ), 0], [0, 1]] [1, 0, 0] 1e-6 = none) ∧
      (crossNorm ([(1 : ℝ)].map fun x => x / euclNorm [(1 : ℝ)])
            (matVecDot [[(2 : ℝ)]] ([(1 : ℝ)].map fun x => x / euclNorm [(1 : ℝ)])) = none ∧
        check_eigenvector_alignment [[(2 : ℝ)]] [1] 1e-6 = none) ∧
      (npDotVV [(1 : ℝ), 0] ([(1 : ℝ), 0, 0].map fun x => x / euclNorm [(1 : ℝ), 0, 0]) =
          none ∧
        check_eigenvector_alignment [[(1 : ℝ), 0, 0], [0, 1, 0]] [1, 0, 0] 1e-6 = none) ∧
      (∃ e, calculate_eigenvalues_2d [[(1 : ℝ)]] [] [] = Except.error e) ∧
      (∃ e, calculate_eigenvalues_3d [[(1 : ℝ)]] [] [] = Except.error e) ∧
      ∃ e, transform_vector [[(1 : ℝ), 2]] [3] = Except.error e := by
  have hdot1 : npDotMV [[(1 : ℝ), 0], [0, 1]]
      ([(1 : ℝ), 0, 0].map fun x => x / euclNorm [(1 : ℝ), 0, 0]) = none := by
    unfold npDotMV
    rw [if_neg]
    simp [nCols]
  have hdot2 : npDotMV [[(2 : ℝ)]] ([(1 : ℝ)].map fun x => x / euclNorm [(1 : ℝ)]) =
      some (matVecDot [[(2 : ℝ)]] ([(1 : ℝ)].map fun x => x / euclNorm [(1 : ℝ)])) := by
    unfold npDotMV
    rw [if_pos]
    exact ⟨by simp, by simp [nCols]⟩
  have hcross2 : crossNorm ([(1 : ℝ)].map fun x => x / euclNorm [(1 : ℝ)])
      (matVecDot [[(2 : ℝ)]] ([(1 : ℝ)].map fun x => x / euclNorm [(1 : ℝ)])) = none :=
    crossNorm_of_pad3_left_none _ (pad3_eq_none _ (by simp) (by simp))
  have hn1 : euclNorm [(1 : ℝ), 0, 0] = 1 := by
    rw [euclNorm_three]
    norm_num [Real.sqrt_one]
  have hmap : ([(1 : ℝ), 0, 0].map fun x => x / euclNorm [(1 : ℝ), 0, 0]) =
      [(1 : ℝ), 0, 0] := by
    rw [hn1]
    norm_num
  have hdot3 : npDotMV [[(1 : ℝ), 0, 0], [0, 1, 0]]
      ([(1 : ℝ), 0, 0].map fun x => x / euclNorm [(1 : ℝ), 0, 0]) = some [1, 0] := by
    unfold npDotMV
    rw [if_pos ⟨by simp, by simp [nCols]⟩, hmap]
    norm_num [matVecDot, dotR]
  have hcross3 : crossNorm ([(1 : ℝ), 0, 0].map fun x => x / euclNorm [(1 : ℝ), 0, 0])
      [(1 : ℝ), 0] = some 0 := by
    rw [hmap]
    simp [crossNorm, pad3, cross3, euclNorm]
  have hvv3 : npDotVV [(1 : ℝ), 0]
      ([(1 : ℝ), 0, 0].map fun x => x / euclNorm [(1 : ℝ), 0, 0]) = none := by
    unfold npDotVV
    rw [if_neg]
    simp
  exact ⟨⟨hdot1, claim7_alignment_soft_failure.1 _ _ _ hdot1⟩,
    ⟨hcross2, claim7_alignment_soft_failure.2.1 _ _ _ _ hdot2 hcross2⟩,
    ⟨hvv3, claim7_alignment_soft_failure.2.2.1 _ _ 1e-6 [(1 : ℝ), 0] 0 hdot3 hcross3 hvv3⟩,
    claim7_alignment_soft_failure.2.2.2.1 _ _ _ (by simp [shape2]),
    claim7_alignment_soft_failure.2.2.2.2.1 _ _ _ (by simp [shape3]),
    claim7_alignment_soft_failure.2.2.2.2.2 _ _ (Or.inr (by simp [nCols]))⟩

/-- C6 counterexample: a dimension-violating input to the alignment check (a
3-vector against a 2x2 matrix) is converted into the normal "not an
eigenvector" answer rather than surfacing a shape error. -/
theorem claim6_counterexample :
    ([(1 : ℝ), 0, 0] : Vec).length ≠ nCols [[(1 : ℝ), 0], [0, 1]] ∧
      check_eigenvector_alignment [[(1 : ℝ), 0], [0, 1]] [1, 0, 0] 1e-6 = none := by
  refine ⟨by simp [nCols], ?_⟩
  apply alignment_none_of_dot_fail
  unfold npDotMV
  rw [if_neg]
  simp [nCols]

/-- C6 (amended): for the two decomposition routines and for
`transform_vector`, a dimension-violating input causes a shape error that is
surfaced to the caller and never silently corrected; `check_eigenvector_alignment`
instead converts every dimension violation (non-square matrix or mismatched
vector length) into the normal "not an eigenvector" answer. -/
theorem claim6_amended_shape_policy :
    (∀ (matrix : Mat) (vals : List CNum) (vecs : List (CNum × CNum)),
        ¬ shape2 matrix →
        calculate_eigenvalues_2d matrix vals vecs = .error (.shape "Matrix must be 2x2")) ∧
      (∀ (matrix : Mat) (vals : List CNum) (vecs : List (CNum × CNum × CNum)),
        ¬ shape3 matrix →
        calculate_eigenvalues_3d matrix vals vecs = .error (.shape "Matrix must be 3x3")) ∧
      (∀ (matrix : Mat) (vector : Vec),
        ¬ isSquareMat matrix ∨ vector.length ≠ nCols matrix →
        ∃ e, transform_vector matrix vector = .error e) ∧
      (∀ (matrix : Mat) (vector : Vec) (tolerance : ℝ),
        ¬ isSquareMat matrix ∨ vector.length ≠ nCols matrix →
        check_eigenvector_alignment matrix vector tolerance = none) := by
  refine ⟨?_, ?_, ?_, ?_⟩
  · intro matrix vals vecs h
    unfold calculate_eigenvalues_2d
    rw [if_neg h]
  · intro matrix vals vecs h
    unfold calculate_eigenvalues_3d
    rw [if_neg h]
  · intro matrix vector h
    unfold transform_vector
    rcases h with h | h
    · rw [if_neg h]
      exact ⟨_, rfl⟩
    · by_cases hsq : isSquareMat matrix
      · rw [if_pos hsq, if_neg h]
        exact ⟨_, rfl⟩
      · rw [if_neg hsq]
        exact ⟨_, rfl⟩
  · intro matrix vector tolerance h
    by_cases hv : vector.length = nCols matrix
    · rcases h with h | h
      · by_cases hlen0 : matrix.length = 0
        · apply alignment_none_of_dot_fail
          unfold npDotMV
          rw [if_neg]
          intro hc
          exact hc.1 hlen0
        · have hR : matrix.length ≠ nCols matrix := fun he => h ⟨hlen0, he⟩
          have hdot : npDotMV matrix (vector.map fun x => x / euclNorm vector) =
              some (matVecDot matrix (vector.map fun x => x / euclNorm vector)) := by
            unfold npDotMV
            rw [if_pos ⟨hlen0, by simpa using hv⟩]
          apply alignment_none_of_tv_len_ne matrix vector tolerance _ hdot
          simp only [matVecDot, List.length_map]
          rw [hv]
          exact hR
      · exact absurd hv h
    · apply alignment_none_of_dot_fail
      unfold npDotMV
      rw [if_neg]
      intro hc
      exact hv (by simpa using hc.2)

theorem claim6_witness :
    calculate_eigenvalues_2d [[(1 : ℝ), 0, 0]] [] [] = .error (.shape "Matrix must be 2x2") ∧
      calculate_eigenvalues_3d [[(1 : ℝ)]] [] [] = .error (.shape "Matrix must be 3x3") ∧
      (∃ e, transform_vector [[(1 : ℝ), 2]] [3] = .error e) ∧
      check_eigenvector_alignment [[(1 : ℝ), 0], [0, 1]] [1, 2, 3] 1e-6 = none ∧
      check_eigenvector_alignment [[(1 : ℝ), 0, 0], [0, 1, 0]] [1, 0, 0] 1e-6 = none := by
  exact ⟨claim6_amended_shape_policy.1 _ _ _ (by simp [shape2]),
    claim6_amended_shape_policy.2.1 _ _ _ (by simp [shape3]),
    claim6_amended_shape_policy.2.2.1 _ _ (Or.inr (by simp [nCols])),
    claim6_amended_shape_policy.2.2.2 _ _ _ (Or.inr (by simp [nCols])),
    claim6_amended_shape_policy.2.2.2 _ _ _ (Or.inl (by simp [isSquareMat, nCols]))⟩

/-- C4 counterexample: `[1e-9, 0]` is a nonzero 2-d vector, yet the alignment
check on the 2x2 identity at the default tolerance answers "not an
eigenvector" (its norm falls below the tolerance), not eigenvalue 1.0. -/
theorem claim4_counterexample :
    ([(1e-9 : ℝ), 0] : Vec) ≠ [0, 0] ∧
      check_eigenvector_alignment [[1, 0], [0, 1]] [(1e-9 : ℝ), 0] 1e-6 = none := by
  constructor
  · intro hc
    rw [List.cons.injEq] at hc
    have h0 : (1e-9 : ℝ) = 0 := hc.1
    norm_num at h0
  · have h : euclNorm [(1e-9 : ℝ), 0] < 1e-6 := by
      rw [euclNorm_two, show (1e-9 : ℝ) * 1e-9 + 0 * 0 = (1e-9) ^ 2 by norm_num,
        Real.sqrt_sq (by norm_num)]
      norm_num
    unfold check_eigenvector_alignment
    simp [h]

/-- C4 (amended): the alignment check on the identity matrix at the default
tolerance 1e-6 reports alignment with eigenvalue 1.0 for every 2-d or 3-d
vector whose Euclidean norm is at least the tolerance (a nonzero vector of
smaller norm is instead rejected by the degenerate-input policy). -/
theorem claim4_amended_identity_alignment :
    (∀ a b : ℝ, 1e-6 ≤ euclNorm [a, b] →
        check_eigenvector_alignment [[1, 0], [0, 1]] [a, b] 1e-6 = some 1) ∧
      ∀ a b c : ℝ, 1e-6 ≤ euclNorm [a, b, c] →
        check_eigenvector_alignment [[1, 0, 0], [0, 1, 0], [0, 0, 1]] [a, b, c] 1e-6 =
          some 1 := by
  constructor
  · intro a b hn
    unfold check_eigenvector_alignment
    set n := euclNorm [a, b] with hndef
    have hpos : 0 < n := lt_of_lt_of_le (by norm_num) hn
    have hne : n ≠ 0 := ne_of_gt hpos
    have hnn : n * n = a * a + b * b := by
      rw [hndef, euclNorm_two]
      exact Real.mul_self_sqrt (add_nonneg (mul_self_nonneg a) (mul_self_nonneg b))
    have hnlt : ¬ n < 1e-6 := not_lt.mpr hn
    have hdot : npDotMV [[1, 0], [0, 1]] [a / n, b / n] = some [a / n, b / n] := by
      unfold npDotMV
      rw [if_pos ⟨by simp, by simp [nCols]⟩]
      simp [matVecDot, dotR]
    have hcross : crossNorm [a / n, b / n] [a / n, b / n] = some 0 := by
      simp [crossNorm, pad3, cross3, euclNorm, mul_comm]
    have hvv : npDotVV [a / n, b / n] [a / n, b / n] = some 1 := by
      unfold npDotVV
      rw [if_pos rfl]
      have h1 : dotR [a / n, b / n] [a / n, b / n] = (a * a + b * b) / (n * n) := by
        simp [dotR]
        ring
      rw [h1, ← hnn, div_self (mul_ne_zero hne hne)]
    simp [hnlt, hdot, hcross, hvv, show (0 : ℝ) < 1e-6 by norm_num]
  · intro a b c hn
    unfold check_eigenvector_alignment
    set n := euclNorm [a, b, c] with hndef
    have hpos : 0 < n := lt_of_lt_of_le (by norm_num) hn
    have hne : n ≠ 0 := ne_of_gt hpos
    have hnn : n * n = a * a + (b * b + c * c) := by
      rw [hndef, euclNorm_three]
      exact Real.mul_self_sqrt
        (add_nonneg (mul_self_nonneg a) (add_nonneg (mul_self_nonneg b) (mul_self_nonneg c)))
    have hnlt : ¬ n < 1e-6 := not_lt.mpr hn
    have hdot : npDotMV [[1, 0, 0], [0, 1, 0], [0, 0, 1]] [a / n, b / n, c / n] =
        some [a / n, b / n, c / n] := by
      unfold npDotMV
      rw [if_pos ⟨by simp, by simp [nCols]⟩]
      simp [matVecDot, dotR]
    have hcross : crossNorm [a / n, b / n, c / n] [a / n, b / n, c / n] = some 0 := by
      simp [crossNorm, pad3, cross3, euclNorm, mul_comm]
    have hvv : npDotVV [a / n, b / n, c / n] [a / n, b / n, c / n] = some 1 := by
      unfold npDotVV
      rw [if_pos rfl]
      have h1 : dotR [a / n, b / n, c / n] [a / n, b / n, c / n] =
          (a * a + (b * b + c * c)) / (n * n) := by
        simp [dotR]
        ring
      rw [h1, ← hnn, div_self (mul_ne_zero hne hne)]
    simp [hnlt, hdot, hcross, hvv, show (0 : ℝ) < 1e-6 by norm_num]

theorem claim4_witness :
    (1e-6 : ℝ) ≤ euclNorm [(3 : ℝ), 4] ∧
      check_eigenvector_alignment [[1, 0], [0, 1]] [(3 : ℝ), 4] 1e-6 = some 1 := by
  have h5 : euclNorm [(3 : ℝ), 4] = 5 := by
    rw [euclNorm_two, show (3 : ℝ) * 3 + 4 * 4 = 5 ^ 2 by norm_num,
      Real.sqrt_sq (by norm_num)]
  have hn : (1e-6 : ℝ) ≤ euclNorm [(3 : ℝ), 4] := by
    rw [h5]
    norm_num
  exact ⟨hn, claim4_amended_identity_alignment.1 3 4 hn⟩

/-- C1: every eigenpair classified as real is returned with the real parts
of its eigenvector's components divided by their Euclidean norm whenever
that norm exceeds 1e-10 and unnormalized otherwise; eigenpairs classified
as complex are returned with the components exactly as the solver produced
them, with no normalization. -/
theorem claim1_normalization_policy :
    (∀ (matrix : Mat) (vals : List CNum) (vecs : List (CNum × CNum))
        (r : DecompositionResult) (i : Nat) (val : CNum) (vec : CNum × CNum),
        calculate_eigenvalues_2d matrix vals vecs = .ok r →
        i < vals.length → i < vecs.length →
        vals.getD i ⟨0, 0⟩ = val → vecs.getD i (⟨0, 0⟩, ⟨0, 0⟩) = vec →
        (r.is_real.getD i false = true →
          (1e-10 < euclNorm [vec.1.re, vec.2.re] →
            r.eigenvectors.getD i (EigVec.real []) =
              EigVec.real ([vec.1.re, vec.2.re].map
                fun x => x / euclNorm [vec.1.re, vec.2.re])) ∧
          (¬ 1e-10 < euclNorm [vec.1.re, vec.2.re] →
            r.eigenvectors.getD i (EigVec.real []) = EigVec.real [vec.1.re, vec.2.re])) ∧
        (r.is_real.getD i false = false →
          r.eigenvectors.getD i (EigVec.real []) =
            EigVec.cplx [vec.1.re, vec.2.re] [vec.1.im, vec.2.im])) ∧
      ∀ (matrix : Mat) (vals : List CNum) (vecs : List (CNum × CNum × CNum))
        (r : DecompositionResult) (i : Nat) (val : CNum) (vec : CNum × CNum × CNum),
        calculate_eigenvalues_3d matrix vals vecs = .ok r →
        i < vals.length → i < vecs.length →
        vals.getD i ⟨0, 0⟩ = val → vecs.getD i (⟨0, 0⟩, ⟨0, 0⟩, ⟨0, 0⟩) = vec →
        (r.is_real.getD i false = true →
          (1e-10 < euclNorm [vec.1.re, vec.2.1.re, vec.2.2.re] →
            r.eigenvectors.getD i (EigVec.real []) =
              EigVec.real ([vec.1.re, vec.2.1.re, vec.2.2.re].map
                fun x => x / euclNorm [vec.1.re, vec.2.1.re, vec.2.2.re])) ∧
          (¬ 1e-10 < euclNorm [vec.1.re, vec.2.1.re, vec.2.2.re] →
            r.eigenvectors.getD i (EigVec.real []) =
              EigVec.real [vec.1.re, vec.2.1.re, vec.2.2.re])) ∧
        (r.is_real.getD i false = false →
          r.eigenvectors.getD i (EigVec.real []) =
            EigVec.cplx [vec.1.re, vec.2.1.re, vec.2.2.re]
              [vec.1.im, vec.2.1.im, vec.2.2.im]) := by
  constructor
  · intro matrix vals vecs r i val vec hok h1 h2 hval hvec
    obtain rfl := calc2d_ok_inv matrix vals vecs r hok
    obtain ⟨hv1, hv2, hv3⟩ := decompBuild2_getD matrix vals vecs i h1 h2
    rw [hval, hvec] at hv2 hv3
    obtain ⟨hs1, hs2, hs3⟩ := processPair2_spec val vec
    constructor
    · intro htrue
      rw [hv3] at htrue
      have hc : |val.im| < 1e-10 := hs1.mp htrue
      exact ⟨fun hn => by rw [hv2, hs2 hc, if_pos hn],
        fun hn => by rw [hv2, hs2 hc, if_neg hn]⟩
    · intro hfalse
      rw [hv3] at hfalse
      have hc : ¬ |val.im| < 1e-10 := by
        intro hc
        rw [hs1.mpr hc] at hfalse
        exact absurd hfalse (by simp)
      rw [hv2, hs3 hc]
  · intro matrix vals vecs r i val vec hok h1 h2 hval hvec
    obtain rfl := calc3d_ok_inv matrix vals vecs r hok
    obtain ⟨hv1, hv2, hv3⟩ := decompBuild3_getD matrix vals vecs i h1 h2
    rw [hval, hvec] at hv2 hv3
    obtain ⟨hs1, hs2, hs3⟩ := processPair3_spec val vec
    constructor
    · intro htrue
      rw [hv3] at htrue
      have hc : |val.im| < 1e-10 := hs1.mp htrue
      exact ⟨fun hn => by rw [hv2, hs2 hc, if_pos hn],
        fun hn => by rw [hv2, hs2 hc, if_neg hn]⟩
    · intro hfalse
      rw [hv3] at hfalse
      have hc : ¬ |val.im| < 1e-10 := by
        intro hc
        rw [hs1.mpr hc] at hfalse
        exact absurd hfalse (by simp)
      rw [hv2, hs3 hc]

theorem claim1_witness :
    (1e-10 : ℝ) < euclNorm [(3 : ℝ), 4] ∧
      calculate_eigenvalues_2d [[1, 0], [0, 1]] [⟨2, 0⟩] [(⟨3, 0⟩, ⟨4, 0⟩)] =
        .ok (decompBuild2 [[1, 0], [0, 1]] [⟨2, 0⟩] [(⟨3, 0⟩, ⟨4, 0⟩)]) ∧
      (decompBuild2 [[1, 0], [0, 1]] [⟨2, 0⟩] [(⟨3, 0⟩, ⟨4, 0⟩)]).is_real.getD 0 false =
        true ∧
      (decompBuild2 [[1, 0], [0, 1]] [⟨2, 0⟩]
            [(⟨3, 0⟩, ⟨4, 0⟩)]).eigenvectors.getD 0 (EigVec.real []) =
        EigVec.real ([(3 : ℝ), 4].map fun x => x / euclNorm [(3 : ℝ), 4]) := by
  have hnorm : (1e-10 : ℝ) < euclNorm [(3 : ℝ), 4] := by
    rw [euclNorm_two, show (3 : ℝ) * 3 + 4 * 4 = 5 ^ 2 by norm_num,
      Real.sqrt_sq (by norm_num)]
    norm_num
  have hok : calculate_eigenvalues_2d [[1, 0], [0, 1]] [⟨2, 0⟩] [(⟨3, 0⟩, ⟨4, 0⟩)] =
      .ok (decompBuild2 [[1, 0], [0, 1]] [⟨2, 0⟩] [(⟨3, 0⟩, ⟨4, 0⟩)]) := by
    unfold calculate_eigenvalues_2d
    rw [if_pos (by simp [shape2])]
  have htrue : (decompBuild2 [[1, 0], [0, 1]] [⟨2, 0⟩]
      [(⟨3, 0⟩, ⟨4, 0⟩)]).is_real.getD 0 false = true := by
    norm_num [decompBuild2, processPair2]
  exact ⟨hnorm, hok, htrue,
    ((claim1_normalization_policy.1 _ _ _ _ 0 ⟨2, 0⟩ (⟨3, 0⟩, ⟨4, 0⟩) hok
      (by norm_num) (by norm_num) rfl rfl).1 htrue).1 hnorm⟩

/-- C2: an eigenpair is tagged real exactly when the absolute value of the
imaginary part of its eigenvalue is strictly below 1e-10; the eigenvector's
own imaginary parts play no role (the criterion mentions only the
eigenvalue). -/
theorem claim2_reality_classification :
    (∀ (matrix : Mat) (vals : List CNum) (vecs : List (CNum × CNum))
        (r : DecompositionResult),
        calculate_eigenvalues_2d matrix vals vecs = .ok r →
        ∀ i, i < vals.length → i < vecs.length →
          (r.is_real.getD i false = true ↔ |(vals.getD i ⟨0, 0⟩).im| < 1e-10)) ∧
      ∀ (matrix : Mat) (vals : List CNum) (vecs : List (CNum × CNum × CNum))
        (r : DecompositionResult),
        calculate_eigenvalues_3d matrix vals vecs = .ok r →
        ∀ i, i < vals.length → i < vecs.length →
          (r.is_real.getD i false = true ↔ |(vals.getD i ⟨0, 0⟩).im| < 1e-10) := by
  constructor
  · intro matrix vals vecs r hok i h1 h2
    obtain rfl := calc2d_ok_inv matrix vals vecs r hok
    obtain ⟨hv1, hv2, hv3⟩ := decompBuild2_getD matrix vals vecs i h1 h2
    rw [hv3]
    exact (processPair2_spec _ _).1
  · intro matrix vals vecs r hok i h1 h2
    obtain rfl := calc3d_ok_inv matrix vals vecs r hok
    obtain ⟨hv1, hv2, hv3⟩ := decompBuild3_getD matrix vals vecs i h1 h2
    rw [hv3]
    exact (processPair3_spec _ _).1

theorem claim2_witness :
    calculate_eigenvalues_2d [[0, -1], [1, 0]] [⟨0, 1⟩] [(⟨1, 0⟩, ⟨0, 1⟩)] =
        .ok (decompBuild2 [[0, -1], [1, 0]] [⟨0, 1⟩] [(⟨1, 0⟩, ⟨0, 1⟩)]) ∧
      ((decompBuild2 [[0, -1], [1, 0]] [⟨0, 1⟩] [(⟨1, 0⟩, ⟨0, 1⟩)]).is_real.getD 0 false =
          true ↔
        |(([⟨0, 1⟩] : List CNum).getD 0 ⟨0, 0⟩).im| < 1e-10) ∧
      (decompBuild2 [[0, -1], [1, 0]] [⟨0, 1⟩] [(⟨1, 0⟩, ⟨0, 1⟩)]).is_real.getD 0 false =
        false := by
  have hok : calculate_eigenvalues_2d [[0, -1], [1, 0]] [⟨0, 1⟩] [(⟨1, 0⟩, ⟨0, 1⟩)] =
      .ok (decompBuild2 [[0, -1], [1, 0]] [⟨0, 1⟩] [(⟨1, 0⟩, ⟨0, 1⟩)]) := by
    unfold calculate_eigenvalues_2d
    rw [if_pos (by simp [shape2])]
  refine ⟨hok, claim2_reality_classification.1 _ _ _ _ hok 0 (by norm_num) (by norm_num),
    ?_⟩
  norm_num [decompBuild2, processPair2]

/-- C3: on a well-shaped input for which the eigensolver succeeds (returning
N eigenvalues and N eigenvectors), the decomposition returns exactly N
eigenpairs: the eigenvalue, eigenvector and reality lists all have length N
(N = 2 or 3). -/
theorem claim3_eigenpair_count :
    (∀ (matrix : Mat) (vals : List CNum) (vecs : List (CNum × CNum)),
        shape2 matrix → vals.length = 2 → vecs.length = 2 →
        ∃ r, calculate_eigenvalues_2d matrix vals vecs = .ok r ∧
          r.eigenvalues.length = 2 ∧ r.eigenvectors.length = 2 ∧
          r.is_real.length = 2) ∧
      ∀ (matrix : Mat) (vals : List CNum) (vecs : List (CNum × CNum × CNum)),
        shape3 matrix → vals.length = 3 → vecs.length = 3 →
        ∃ r, calculate_eigenvalues_3d matrix vals vecs = .ok r ∧
          r.eigenvalues.length = 3 ∧ r.eigenvectors.length = 3 ∧
          r.is_real.length = 3 := by
  constructor
  · intro matrix vals vecs hs hv hw
    refine ⟨decompBuild2 matrix vals vecs, ?_, ?_, ?_, ?_⟩
    · unfold calculate_eigenvalues_2d
      rw [if_pos hs]
    · simp [decompBuild2, hv, hw]
    · simp [decompBuild2, hv, hw]
    · simp [decompBuild2, hv, hw]
  · intro matrix vals vecs hs hv hw
    refine ⟨decompBuild3 matrix vals vecs, ?_, ?_, ?_, ?_⟩
    · unfold calculate_eigenvalues_3d
      rw [if_pos hs]
    · simp [decompBuild3, hv, hw]
    · simp [decompBuild3, hv, hw]
    · simp [decompBuild3, hv, hw]

theorem claim3_witness :
    shape2 [[(2 : ℝ), 0], [0, 3]] ∧
      ∃ r, calculate_eigenvalues_2d [[(2 : ℝ), 0], [0, 3]] [⟨2, 0⟩, ⟨3, 0⟩]
          [(⟨1, 0⟩, ⟨0, 0⟩), (⟨0, 0⟩, ⟨1, 0⟩)] = .ok r ∧
        r.eigenvalues.length = 2 ∧ r.eigenvectors.length = 2 ∧ r.is_real.length = 2 := by
  have hs : shape2 [[(2 : ℝ), 0], [0, 3]] := by simp [shape2]
  exact ⟨hs, claim3_eigenpair_count.1 _ _ _ hs rfl rfl⟩

end Linalgovistool
